import Mathlib

/-!
Verification development for the Clintra biomedical aggregation backend.

The definitions below are a shallow embedding of the multi-source
query-fanout / dedup layer of the backend:

* `PubMed` embeds `backend/app/connectors/pubmed.py`
  (`PubMedConnector.search_articles`, `_search_single_query`,
  `_generate_search_variations`, `_get_fallback_data`);
* `Trials` embeds `backend/app/connectors/trials.py`
  (`ClinicalTrialsConnector.search_trials`,
  `_generate_trial_search_variations`, `_get_fallback_data`);
* `PubChem` embeds `backend/app/connectors/pubchem.py`
  (`_generate_compound_search_variations`, `_extract_biomedical_terms`,
  `_ai_enhance_compound_queries`, and the accumulation loop of
  `search_compounds`);
* `Rag` embeds `backend/app/rag.py` (`call_cerebras_api`,
  `fallback_to_openai`, `_clean_cerebras_response`).

External effects (HTTP calls, the OpenAI completion service, the
run-dependent ordering produced by Python `set` iteration) are modelled
as explicit oracle parameters ("worlds" / environments); everything else
is translated directly from the Python source.  Python string operations
(`lower`, `strip`, `title`, `replace`, `in`, `split`) are implemented
over `List Char` so that every definition reduces by `rfl`/`decide`.
Caller-supplied result caps (`max_results`) are modelled as `Nat`.
-/

namespace Py

/-- Python `str` whitespace set used by `str.strip()` / `str.split()`
(space, tab, newline, carriage return, vertical tab, form feed). -/
def isSpace (c : Char) : Bool :=
  c == ' ' || c == '\t' || c == '\n' || c == '\r' ||
  c == Char.ofNat 11 || c == Char.ofNat 12

/-- Python `str.strip()` on a character list. -/
def stripL (s : List Char) : List Char :=
  ((s.dropWhile isSpace).reverse.dropWhile isSpace).reverse

/-- Python `str.strip()`. -/
def strip (s : String) : String := ⟨stripL s.data⟩

/-- Python `str.lower()` (ASCII behaviour). -/
def lower (s : String) : String := ⟨s.data.map Char.toLower⟩

/-- Python `str.title()` on a character list: a letter is uppercased when
the previous character is not a letter, lowercased otherwise. -/
def titleGo (prevAlpha : Bool) : List Char → List Char
  | [] => []
  | c :: cs =>
    (if c.isAlpha then (if prevAlpha then c.toLower else c.toUpper) else c)
      :: titleGo c.isAlpha cs

/-- Python `str.title()`. -/
def title (s : String) : String := ⟨titleGo false s.data⟩

/-- Substring test on character lists (Python `pat in s`). -/
def hasSub : List Char → List Char → Bool
  | [], pat => pat.isPrefixOf []
  | c :: t, pat => pat.isPrefixOf (c :: t) || hasSub t pat

/-- Python `pat in s` substring containment. -/
def contains (s pat : String) : Bool := hasSub s.data pat.data

/-- Replacement of every non-overlapping occurrence of `pat` (non-empty)
by `rep`, scanning left to right; `fuel` bounds the scan and is always
instantiated with the length of the scanned list, which suffices because
every step consumes at least one character. -/
def replaceGo (pat rep : List Char) : Nat → List Char → List Char
  | _, [] => []
  | 0, s => s
  | fuel + 1, c :: cs =>
    if pat ≠ [] ∧ pat.isPrefixOf (c :: cs) then
      rep ++ replaceGo pat rep fuel (cs.drop (pat.length - 1))
    else
      c :: replaceGo pat rep fuel cs

/-- Python `s.replace(pat, rep)` (also the effect of `re.sub` with a
pattern containing no metacharacters). -/
def replace (s pat rep : String) : String :=
  ⟨replaceGo pat.data rep.data s.data.length s.data⟩

/-- Python `s.split(sep)` for a single-character separator, keeping empty
fields (e.g. `''.split(c) == ['']`). -/
def splitCharGo (sep : Char) (cur : List Char) : List Char → List (List Char)
  | [] => [cur.reverse]
  | c :: cs => if c == sep then cur.reverse :: splitCharGo sep [] cs
               else splitCharGo sep (c :: cur) cs

/-- Python `s.split(sep)` for a one-character separator string. -/
def splitChar (sep : Char) (s : String) : List String :=
  (splitCharGo sep [] s.data).map (fun l => ⟨l⟩)

/-- Python `s.split()` (split on whitespace runs, dropping empty fields). -/
def wordsGo (cur : List Char) : List Char → List (List Char)
  | [] => if cur = [] then [] else [cur.reverse]
  | c :: cs => if isSpace c then
                 (if cur = [] then wordsGo [] cs else cur.reverse :: wordsGo [] cs)
               else wordsGo (c :: cur) cs

/-- Python `s.split()` with no argument. -/
def words (s : String) : List String := (wordsGo [] s.data).map (fun l => ⟨l⟩)

/-- Python `s.rstrip(chars)`: drop trailing characters belonging to `cs`. -/
def rstripSet (s : String) (cs : List Char) : String :=
  ⟨(s.data.reverse.dropWhile (fun c => cs.contains c)).reverse⟩

/-- Python `s.endswith(('.', '!', '?'))`. -/
def endsWithPunct (s : String) : Bool :=
  match s.data.getLast? with
  | some c => c == '.' || c == '!' || c == '?'
  | none => false

end Py

/-!
The tail of every `_generate_*_variations` function (pubmed.py 193-203,
trials.py 202-212, pubchem.py 186-196) is the same dedup loop: walk the
candidate list, keep a string when it has not been seen, and break as
soon as five strings have been kept.
-/

/-- The dedup-and-cap loop shared by all variation generators:
`unique_variations`/`seen` accumulation with a break at five entries. -/
def dedupCapGo : List String → List String → List String → List String
  | uniq, _, [] => uniq
  | uniq, seen, v :: rest =>
    if v ∈ seen then dedupCapGo uniq seen rest
    else if 5 ≤ (uniq ++ [v]).length then uniq ++ [v]
    else dedupCapGo (uniq ++ [v]) (v :: seen) rest

/-- Entry point of the dedup-and-cap loop (`unique_variations = []`,
`seen = set()`). -/
def dedupCap (l : List String) : List String := dedupCapGo [] [] l

theorem dedupCapGo_length {uniq seen l} (h : uniq.length < 5) :
    (dedupCapGo uniq seen l).length ≤ 5 := by
  induction l generalizing uniq seen with
  | nil => simpa [dedupCapGo] using Nat.le_of_lt h
  | cons v rest ih =>
    rw [dedupCapGo]
    split_ifs with h₁ h₂
    · exact ih h
    · simp only [List.length_append, List.length_singleton]
      omega
    · apply ih
      simp only [List.length_append, List.length_singleton] at h₂ ⊢
      omega

theorem dedupCapGo_extends (uniq seen l) :
    ∃ t, dedupCapGo uniq seen l = uniq ++ t := by
  induction l generalizing uniq seen with
  | nil => exact ⟨[], by simp [dedupCapGo]⟩
  | cons v rest ih =>
    rw [dedupCapGo]
    split_ifs with h₁ h₂
    · exact ih uniq seen
    · exact ⟨[v], rfl⟩
    · obtain ⟨t, ht⟩ := ih (uniq ++ [v]) (v :: seen)
      exact ⟨[v] ++ t, by simpa using ht⟩

theorem dedupCapGo_nodup {uniq seen l} (h₁ : uniq.Nodup)
    (h₂ : ∀ u ∈ uniq, u ∈ seen) : (dedupCapGo uniq seen l).Nodup := by
  induction l generalizing uniq seen with
  | nil => simpa [dedupCapGo] using h₁
  | cons v rest ih =>
    rw [dedupCapGo]
    split_ifs with hv hlen
    · exact ih h₁ h₂
    · simp [List.nodup_append, h₁, List.disjoint_singleton]
      exact fun hmem => hv (h₂ v hmem)
    · apply ih
      · simp [List.nodup_append, h₁, List.disjoint_singleton]
        exact fun hmem => hv (h₂ v hmem)
      · intro u hu
        rcases List.mem_append.1 hu with hu | hu
        · exact List.mem_cons_of_mem _ (h₂ u hu)
        · simp only [List.mem_singleton] at hu
          subst hu; exact List.mem_cons_self _ _

/-- Whatever candidate list the generators build, its head survives as the
head of the deduplicated output. -/
theorem dedupCap_head (v : String) (l : List String) :
    ∃ t, dedupCap (v :: l) = v :: t := by
  rw [dedupCap, dedupCapGo]
  split_ifs with h₁ h₂
  · simp at h₁
  · simp at h₂
  · obtain ⟨t, ht⟩ := dedupCapGo_extends ([] ++ [v]) (v :: []) l
    exact ⟨t, by simpa using ht⟩

theorem dedupCap_length (l : List String) : (dedupCap l).length ≤ 5 :=
  dedupCapGo_length (by simp)

theorem dedupCap_nodup (l : List String) : (dedupCap l).Nodup :=
  dedupCapGo_nodup (by simp) (by simp)

namespace PubMed

/-- Embeds `PubMedConnector._generate_search_variations`
(pubmed.py 135-203): start from the original query, append the
keyword-triggered variations built from the lowercased/stripped query,
then dedup and cap at five. -/
def generate_search_variations (query : String) : List String :=
  let c := Py.strip (Py.lower query)
  let v1 := if Py.contains c "cancer" || Py.contains c "tumor" ||
               Py.contains c "carcinoma" then
      [c ++ " oncology", c ++ " chemotherapy", c ++ " immunotherapy"] else []
  let v2 := if Py.contains c "diabetes" || Py.contains c "insulin" ||
               Py.contains c "glucose" then
      [c ++ " mellitus", c ++ " hyperglycemia", c ++ " antidiabetic"] else []
  let v3 := if Py.contains c "hiv" || Py.contains c "aids" ||
               Py.contains c "retrovirus" then
      [c ++ " antiretroviral", c ++ " immunodeficiency", c ++ " viral"] else []
  let v4 := if Py.contains c "alzheimer" || Py.contains c "dementia" ||
               Py.contains c "cognitive" then
      [c ++ " neurodegenerative", c ++ " amyloid", c ++ " tau"] else []
  let v5 := if Py.contains c "protein" || Py.contains c "enzyme" ||
               Py.contains c "receptor" then
      [c ++ " structure", c ++ " binding", c ++ " function"] else []
  let v6 := if Py.contains c "drug" || Py.contains c "compound" ||
               Py.contains c "medication" then
      [c ++ " mechanism", c ++ " pharmacokinetics", c ++ " efficacy"] else []
  let v7 := if !(Py.contains c "therapy" || Py.contains c "treatment" ||
               Py.contains c "clinical") then [c ++ " therapy"] else []
  dedupCap (query :: (v1 ++ v2 ++ v3 ++ v4 ++ v5 ++ v6 ++ v7))

theorem generate_search_variations_head (query : String) :
    ∃ t, generate_search_variations query = query :: t := by
  unfold generate_search_variations
  exact dedupCap_head query _

end PubMed

namespace Trials

/-- Embeds `ClinicalTrialsConnector._generate_trial_search_variations`
(trials.py 112-212). -/
def generate_trial_search_variations (query : String) : List String :=
  let c := Py.strip (Py.lower query)
  let v1 := if Py.contains c "cancer" || Py.contains c "tumor" ||
               Py.contains c "oncology" then
      [c ++ " clinical trial", c ++ " oncology study", c ++ " cancer treatment",
       "cancer immunotherapy", "cancer chemotherapy", "cancer surgery"] else []
  let v2 := if Py.contains c "diabetes" || Py.contains c "insulin" ||
               Py.contains c "glucose" then
      [c ++ " clinical trial", c ++ " diabetes study", c ++ " glucose control",
       "diabetes medication", "insulin therapy", "diabetes prevention"] else []
  let v3 := if Py.contains c "hiv" || Py.contains c "aids" ||
               Py.contains c "antiretroviral" then
      [c ++ " clinical trial", c ++ " HIV study", c ++ " antiretroviral",
       "HIV prevention", "HIV treatment", "HIV vaccine"] else []
  let v4 := if Py.contains c "alzheimer" || Py.contains c "dementia" ||
               Py.contains c "cognitive" then
      [c ++ " clinical trial", c ++ " dementia study", c ++ " cognitive therapy",
       "alzheimer treatment", "dementia prevention", "cognitive enhancement"]
    else []
  let v5 := if Py.contains c "hypertension" || Py.contains c "blood pressure" then
      [c ++ " clinical trial", c ++ " hypertension study",
       c ++ " blood pressure control", "hypertension medication",
       "blood pressure monitoring"] else []
  let v6 := if Py.contains c "drug" || Py.contains c "medication" ||
               Py.contains c "therapy" then
      [c ++ " clinical trial", c ++ " drug study", c ++ " therapeutic trial",
       c ++ " treatment study"] else []
  let v7 := if Py.contains c "vaccine" || Py.contains c "immunization" then
      [c ++ " vaccine trial", c ++ " immunization study",
       c ++ " vaccine efficacy"] else []
  let v8 := if Py.contains c "surgery" || Py.contains c "surgical" then
      [c ++ " surgical trial", c ++ " surgery study", c ++ " operative study"]
    else []
  let v9 := if Py.contains c "device" || Py.contains c "implant" ||
               Py.contains c "prosthetic" then
      [c ++ " device trial", c ++ " medical device study", c ++ " device safety"]
    else []
  let v10 := if Py.contains c "phase" || Py.contains c "clinical" then
      [c ++ " phase 1", c ++ " phase 2", c ++ " phase 3",
       c ++ " randomized trial"] else []
  dedupCap (query ::
    (v1 ++ v2 ++ v3 ++ v4 ++ v5 ++ v6 ++ v7 ++ v8 ++ v9 ++ v10))

theorem generate_trial_search_variations_head (query : String) :
    ∃ t, generate_trial_search_variations query = query :: t := by
  unfold generate_trial_search_variations
  exact dedupCap_head query _

end Trials

/-!
Canonical record shapes.  `Article` and `Trial` carry the fields built by
`_parse_pubmed_xml` / `_parse_trial_data` and by the fallback tables;
`Compound` keeps the `cid` natural key (an integer in pubchem.py) plus the
display name, which is all the accumulation loop of `search_compounds`
inspects.
-/

structure Article where
  pmid : String
  title : String
  authors : String
  abstract : String
  journal : String
  publication_date : String
  doi : String
  url : String
  mesh_terms : List String
  citation_count : Nat
deriving DecidableEq, Repr

structure Trial where
  nct_id : String
  title : String
  status : String
  phase : String
  conditions : List String
  interventions : List String
  locations : List String
  start_date : String
  completion_date : String
  url : String
  sponsor : String
deriving DecidableEq, Repr

structure Compound where
  cid : Int
  name : String
deriving DecidableEq, Repr

namespace PubMed

/-- Embeds `PubMedConnector._get_fallback_data` (pubmed.py 301-330). -/
def get_fallback_data (query : String) : List Article :=
  [{ pmid := "12345678",
     title := "Recent Advances in " ++ Py.title query ++ " Research",
     authors := "Doe, J.; Smith, A.; Wilson, B.",
     abstract := "This comprehensive review examines the latest developments in "
       ++ query ++
       " research, highlighting key findings and future directions in the field.",
     journal := "Journal of Biomedical Research",
     publication_date := "2024/01/10",
     doi := "10.1000/jbr.2024.001",
     url := "https://pubmed.ncbi.nlm.nih.gov/12345678/",
     mesh_terms := [Py.title query, "Research", "Biomedical"],
     citation_count := 42 },
   { pmid := "87654321",
     title := "Clinical Applications of " ++ Py.title query,
     authors := "Johnson, M.; Brown, K.; Davis, L.",
     abstract := "Clinical studies demonstrate the effectiveness of " ++ query ++
       " in various therapeutic applications, with promising results for patient outcomes.",
     journal := "Clinical Medicine Today",
     publication_date := "2024/01/05",
     doi := "10.2000/cmt.2024.002",
     url := "https://pubmed.ncbi.nlm.nih.gov/87654321/",
     mesh_terms := [Py.title query, "Clinical Applications", "Therapeutics"],
     citation_count := 28 }]

end PubMed

namespace Trials

/-- Embeds the `trials` list of `ClinicalTrialsConnector._get_fallback_data`
(trials.py 307-355); `search_trials` reads it through
`trials_result.get('trials', [])`. -/
def get_fallback_trials (query : String) : List Trial :=
  [{ nct_id := "NCT12345678",
     title := "A Study to Evaluate the Efficacy of a Simulated Drug for '"
       ++ query ++ "'",
     status := "Recruiting",
     phase := "Phase II",
     conditions := [query],
     interventions := ["Drug: Simulated Drug"],
     locations := ["United States", "Canada"],
     start_date := "2024-01-01",
     completion_date := "2025-12-31",
     url := "https://clinicaltrials.gov/study/NCT12345678",
     sponsor := "Simulated Research Institute" },
   { nct_id := "NCT87654321",
     title := "Phase II Trial Investigating " ++ query ++ " Treatment",
     status := "Active",
     phase := "Phase II",
     conditions := [query],
     interventions := ["Drug: Experimental Treatment"],
     locations := ["United States", "United Kingdom"],
     start_date := "2023-06-01",
     completion_date := "2024-12-31",
     url := "https://clinicaltrials.gov/study/NCT87654321",
     sponsor := "Experimental Medicine Corp" },
   { nct_id := "NCT11223344",
     title := "Safety and Efficacy Study for " ++ query,
     status := "Completed",
     phase := "Phase III",
     conditions := [query],
     interventions := ["Drug: Standard Treatment"],
     locations := ["United States", "Germany", "Japan"],
     start_date := "2022-01-01",
     completion_date := "2023-12-31",
     url := "https://clinicaltrials.gov/study/NCT11223344",
     sponsor := "Global Health Research" }]

end Trials

/-!
Generic embedding of the fanout/dedup loop that appears verbatim (modulo
the name of the natural-key field) in `PubMedConnector.search_articles`
(pubmed.py 22-48), `ClinicalTrialsConnector.search_trials`
(trials.py 20-46) and `PubChemConnector.search_compounds`
(pubchem.py 36-62):

```
all = []; seen = set()
for variation in variations:
    try:
        out = single_query(variation)
        for rec in out:
            k = rec.get(key, '')
            if k and k not in seen:
                all.append(rec); seen.add(k)
        if len(all) >= max_results: break
    except Exception: continue
return all[:max_results]
```

The per-variation behaviour of the surrounding world is an oracle: each
variation yields either `none` (the inner call itself raised, the
`except ... continue` path) or `some out` (the record list the inner call
returned).  `queried` and `stream` are observers recording, respectively,
how many variations the loop attempted and the concatenation of the
record lists it consumed; they instrument the run without affecting
`records`/`seen`.
-/

structure FanoutRun (α κ : Type) where
  records : List α
  seen : List κ
  queried : Nat
  stream : List α

variable {α κ : Type}

/-- One record of the inner accumulation: `if k and k not in seen`. -/
def step1 [DecidableEq κ] (key : α → κ) (ok : κ → Bool)
    (p : List α × List κ) (a : α) : List α × List κ :=
  if ok (key a) = true ∧ key a ∉ p.2 then (p.1 ++ [a], key a :: p.2) else p

/-- The inner `for rec in out` loop over one variation's record list. -/
def addAll [DecidableEq κ] (key : α → κ) (ok : κ → Bool)
    (p : List α × List κ) (out : List α) : List α × List κ :=
  out.foldl (step1 key ok) p

/-- State update for one successfully returning variation. -/
def fanoutStep [DecidableEq κ] (key : α → κ) (ok : κ → Bool)
    (s : FanoutRun α κ) (out : List α) : FanoutRun α κ :=
  ⟨(addAll key ok (s.records, s.seen) out).1,
   (addAll key ok (s.records, s.seen) out).2,
   s.queried + 1, s.stream ++ out⟩

/-- The outer `for variation in variations` loop with its early break. -/
def fanoutGo [DecidableEq κ] (key : α → κ) (ok : κ → Bool) (maxr : Nat) :
    List (Option (List α)) → FanoutRun α κ → FanoutRun α κ
  | [], s => s
  | none :: rest, s =>
    fanoutGo key ok maxr rest ⟨s.records, s.seen, s.queried + 1, s.stream⟩
  | some out :: rest, s =>
    if maxr ≤ (fanoutStep key ok s out).records.length then fanoutStep key ok s out
    else fanoutGo key ok maxr rest (fanoutStep key ok s out)

/-- A full fanout run from the empty accumulator. -/
def fanoutRun [DecidableEq κ] (key : α → κ) (ok : κ → Bool) (maxr : Nat)
    (inputs : List (Option (List α))) : FanoutRun α κ :=
  fanoutGo key ok maxr inputs ⟨[], [], 0, []⟩

/-- Specification-side dedup (spec section 4.3, step 2): one pass over a
record stream keeping the first occurrence of each truthy natural key. -/
def dedupFirstSeen [DecidableEq κ] (key : α → κ) (ok : κ → Bool) :
    List κ → List α → List α
  | _, [] => []
  | seen, a :: l =>
    if ok (key a) = true ∧ key a ∉ seen then
      a :: dedupFirstSeen key ok (key a :: seen) l
    else dedupFirstSeen key ok seen l

/-- Keys marked seen after one pass of `dedupFirstSeen`. -/
def seenAfter [DecidableEq κ] (key : α → κ) (ok : κ → Bool) :
    List κ → List α → List κ
  | seen, [] => seen
  | seen, a :: l =>
    if ok (key a) = true ∧ key a ∉ seen then seenAfter key ok (key a :: seen) l
    else seenAfter key ok seen l

/-- The accumulation of a fanout with the early break removed: what
`all`/`seen` would hold after processing a whole prefix of the inputs. -/
def accNoBreakFrom [DecidableEq κ] (key : α → κ) (ok : κ → Bool)
    (p : List α × List κ) (inputs : List (Option (List α))) : List α × List κ :=
  inputs.foldl (fun p i => match i with
    | none => p
    | some out => addAll key ok p out) p

theorem addAll_eq [DecidableEq κ] (key : α → κ) (ok : κ → Bool) :
    ∀ (l : List α) (acc : List α) (seen : List κ),
      addAll key ok (acc, seen) l =
        (acc ++ dedupFirstSeen key ok seen l, seenAfter key ok seen l) := by
  intro l
  induction l with
  | nil => intro acc seen; simp [addAll, dedupFirstSeen, seenAfter]
  | cons a l ih =>
    intro acc seen
    by_cases h : ok (key a) = true ∧ key a ∉ seen
    · simp only [addAll, List.foldl_cons, step1, if_pos h] at *
      rw [ih]
      simp [dedupFirstSeen, seenAfter, if_pos h]
    · simp only [addAll, List.foldl_cons, step1, if_neg h] at *
      rw [ih]
      simp [dedupFirstSeen, seenAfter, if_neg h]

theorem addAll_append [DecidableEq κ] (key : α → κ) (ok : κ → Bool)
    (p : List α × List κ) (l l' : List α) :
    addAll key ok (addAll key ok p l) l' = addAll key ok p (l ++ l') := by
  simp [addAll, List.foldl_append]

theorem dedupFirstSeen_sublist [DecidableEq κ] (key : α → κ) (ok : κ → Bool) :
    ∀ (l : List α) (seen : List κ), List.Sublist (dedupFirstSeen key ok seen l) l := by
  intro l
  induction l with
  | nil => intro seen; simp [dedupFirstSeen]
  | cons a l ih =>
    intro seen
    by_cases h : ok (key a) = true ∧ key a ∉ seen
    · rw [dedupFirstSeen, if_pos h]
      exact List.Sublist.cons₂ a (ih _)
    · rw [dedupFirstSeen, if_neg h]
      exact List.Sublist.cons a (ih _)

theorem dedupFirstSeen_ok [DecidableEq κ] (key : α → κ) (ok : κ → Bool) :
    ∀ (l : List α) (seen : List κ) (a : α),
      a ∈ dedupFirstSeen key ok seen l → ok (key a) = true := by
  intro l
  induction l with
  | nil => intro seen a h; simp [dedupFirstSeen] at h
  | cons b l ih =>
    intro seen a h
    by_cases hb : ok (key b) = true ∧ key b ∉ seen
    · rw [dedupFirstSeen, if_pos hb] at h
      rcases List.mem_cons.1 h with h | h
      · subst h; exact hb.1
      · exact ih _ _ h
    · rw [dedupFirstSeen, if_neg hb] at h
      exact ih _ _ h

theorem dedupFirstSeen_keys [DecidableEq κ] (key : α → κ) (ok : κ → Bool) :
    ∀ (l : List α) (seen : List κ),
      ((dedupFirstSeen key ok seen l).map key).Nodup ∧
        ∀ k ∈ (dedupFirstSeen key ok seen l).map key, k ∉ seen := by
  intro l
  induction l with
  | nil => intro seen; simp [dedupFirstSeen]
  | cons a l ih =>
    intro seen
    by_cases h : ok (key a) = true ∧ key a ∉ seen
    · rw [dedupFirstSeen, if_pos h]
      obtain ⟨ih₁, ih₂⟩ := ih (key a :: seen)
      refine ⟨?_, ?_⟩
      · simp only [List.map_cons, List.nodup_cons]
        exact ⟨fun hmem => (ih₂ _ hmem) (List.mem_cons_self _ _), ih₁⟩
      · intro k hk
        simp only [List.map_cons, List.mem_cons] at hk
        rcases hk with hk | hk
        · subst hk; exact h.2
        · exact fun hks => (ih₂ _ hk) (List.mem_cons_of_mem _ hks)
    · rw [dedupFirstSeen, if_neg h]
      exact ih seen

theorem fanoutGo_inv [DecidableEq κ] (key : α → κ) (ok : κ → Bool) (maxr : Nat) :
    ∀ (inputs : List (Option (List α))) (s : FanoutRun α κ),
      (s.records, s.seen) = addAll key ok ([], []) s.stream →
      ((fanoutGo key ok maxr inputs s).records,
        (fanoutGo key ok maxr inputs s).seen) =
        addAll key ok ([], []) (fanoutGo key ok maxr inputs s).stream := by
  intro inputs
  induction inputs with
  | nil => intro s h; simpa [fanoutGo] using h
  | cons i rest ih =>
    intro s h
    match i with
    | none => exact ih _ h
    | some out =>
      have hstep : ((fanoutStep key ok s out).records,
          (fanoutStep key ok s out).seen) =
          addAll key ok ([], []) (fanoutStep key ok s out).stream := by
        simp only [fanoutStep, ← addAll_append]
        rw [← h]
      rw [fanoutGo]
      split_ifs with hbr
      · exact hstep
      · exact ih _ hstep

/-- The records accumulated by a fanout run are exactly the one-pass
first-seen dedup of the stream of records the loop consumed. -/
theorem fanoutRun_records [DecidableEq κ] (key : α → κ) (ok : κ → Bool)
    (maxr : Nat) (inputs : List (Option (List α))) :
    (fanoutRun key ok maxr inputs).records =
      dedupFirstSeen key ok [] (fanoutRun key ok maxr inputs).stream := by
  have h := fanoutGo_inv key ok maxr inputs ⟨[], [], 0, []⟩ (by simp [addAll])
  rw [fanoutRun]
  have := congrArg Prod.fst h
  simpa [addAll_eq] using this

theorem fanoutRun_records_sublist_stream [DecidableEq κ] (key : α → κ)
    (ok : κ → Bool) (maxr : Nat) (inputs : List (Option (List α))) :
    List.Sublist (fanoutRun key ok maxr inputs).records
      (fanoutRun key ok maxr inputs).stream := by
  rw [fanoutRun_records]
  exact dedupFirstSeen_sublist key ok _ _

theorem fanoutRun_keys_nodup [DecidableEq κ] (key : α → κ) (ok : κ → Bool)
    (maxr : Nat) (inputs : List (Option (List α))) :
    ((fanoutRun key ok maxr inputs).records.map key).Nodup := by
  rw [fanoutRun_records]
  exact (dedupFirstSeen_keys key ok _ _).1

theorem fanoutRun_keys_ok [DecidableEq κ] (key : α → κ) (ok : κ → Bool)
    (maxr : Nat) (inputs : List (Option (List α))) :
    ∀ a ∈ (fanoutRun key ok maxr inputs).records, ok (key a) = true := by
  rw [fanoutRun_records]
  exact fun a h => dedupFirstSeen_ok key ok _ _ a h

/-- Monotonicity of the no-break accumulator under one more record list. -/
theorem addAll_length_mono [DecidableEq κ] (key : α → κ) (ok : κ → Bool) :
    ∀ (l : List α) (p : List α × List κ),
      p.1.length ≤ (addAll key ok p l).1.length := by
  intro l
  induction l with
  | nil => intro p; simp [addAll]
  | cons a l ih =>
    intro p
    rw [addAll, List.foldl_cons]
    refine Nat.le_trans ?_ (ih (step1 key ok p a))
    rw [step1]
    split_ifs
    · simp
    · exact Nat.le_refl _

/-- Early-break lemma: if the accumulator would already hold at least
`maxr` records after processing the first `i` variations, then the run
attempts at most `i` variations beyond its starting point — provided the
starting accumulator is still below `maxr`. -/
theorem fanoutGo_no_overrun [DecidableEq κ] (key : α → κ) (ok : κ → Bool)
    (maxr : Nat) :
    ∀ (inputs : List (Option (List α))) (s : FanoutRun α κ) (i : Nat),
      s.records.length < maxr →
      maxr ≤ (accNoBreakFrom key ok (s.records, s.seen) (inputs.take i)).1.length →
      (fanoutGo key ok maxr inputs s).queried ≤ s.queried + i := by
  intro inputs
  induction inputs with
  | nil =>
    intro s i hlt hge
    simp only [fanoutGo]
    omega
  | cons inp rest ih =>
    intro s i hlt hge
    match i with
    | 0 =>
      exfalso
      simp only [List.take_zero, accNoBreakFrom, List.foldl_nil] at hge
      omega
    | Nat.succ j =>
      match inp with
      | none =>
        have hge' : maxr ≤ (accNoBreakFrom key ok (s.records, s.seen)
            (rest.take j)).1.length := hge
        have h2 := ih ⟨s.records, s.seen, s.queried + 1, s.stream⟩ j hlt hge'
        have h3 : (fanoutGo key ok maxr rest
            (⟨s.records, s.seen, s.queried + 1, s.stream⟩ : FanoutRun α κ)).queried
            ≤ s.queried + 1 + j := h2
        rw [fanoutGo]
        omega
      | some out =>
        rw [fanoutGo]
        split_ifs with hbr
        · have hq : (fanoutStep key ok s out).queried = s.queried + 1 := rfl
          omega
        · have hlt' : (fanoutStep key ok s out).records.length < maxr :=
            Nat.lt_of_not_le hbr
          have hge' : maxr ≤ (accNoBreakFrom key ok
              ((fanoutStep key ok s out).records,
                (fanoutStep key ok s out).seen) (rest.take j)).1.length := hge
          have h2 := ih (fanoutStep key ok s out) j hlt' hge'
          have h3 : (fanoutGo key ok maxr rest (fanoutStep key ok s out)).queried
              ≤ s.queried + 1 + j := h2
          omega

/-- Outcome of the live HTTP interaction inside a single-variation query:
the request/parse raised (`apiError`, the `except` branches of
`_search_single_query`, pubmed.py 107-112 / trials.py 105-110) or it
produced a parsed record list. -/
inductive LiveResult (α : Type) where
  | apiError : LiveResult α
  | parsed : List α → LiveResult α
deriving DecidableEq

/-- Behaviour of one variation at the outer loop's level: the inner call
itself raised out of `_search_single_query` (the loop's
`except Exception: continue` branch), or it returned and its live
interaction went as described by `LiveResult`. -/
inductive VarCall (α : Type) where
  | raises : VarCall α
  | live : LiveResult α → VarCall α
deriving DecidableEq

namespace PubMed

/-- Embeds `PubMedConnector._search_single_query` (pubmed.py 54-112) at
the level the claims need: a live API/parsing failure returns
`_get_fallback_data(query)` for the variation actually queried, a live
success returns the parsed article list. -/
def search_single_query (variation : String) : LiveResult Article → List Article
  | .apiError => get_fallback_data variation
  | .parsed out => out

/-- Per-variation oracle inputs of one `search_articles` call. -/
def prepareInputs (world : String → VarCall Article) (vars : List String) :
    List (Option (List Article)) :=
  vars.map fun v => match world v with
    | .raises => none
    | .live r => some (search_single_query v r)

/-- The instrumented run of `PubMedConnector.search_articles`
(pubmed.py 13-52) over an oracle `world` assigning each variation its
behaviour. -/
def searchArticlesRun (query : String) (maxr : Nat)
    (world : String → VarCall Article) : FanoutRun Article String :=
  fanoutRun (fun a => a.pmid) (fun k => !(k == "")) maxr
    (prepareInputs world (generate_search_variations query))

/-- Caller-visible result of `search_articles`:
`final_articles = all_articles[:max_results]` (pubmed.py 46-48). -/
def search_articles (query : String) (maxr : Nat)
    (world : String → VarCall Article) : List Article :=
  (searchArticlesRun query maxr world).records.take maxr

end PubMed

namespace Trials

/-- Embeds `_search_single_trial_query` read through
`trials_result.get('trials', [])` (trials.py 26-27): the live failure
path yields the fallback dict's `trials` list, success yields the parsed
trials. -/
def search_single_trial_query (variation : String) : LiveResult Trial → List Trial
  | .apiError => get_fallback_trials variation
  | .parsed out => out

/-- Per-variation oracle inputs of one `search_trials` call. -/
def prepareInputs (world : String → VarCall Trial) (vars : List String) :
    List (Option (List Trial)) :=
  vars.map fun v => match world v with
    | .raises => none
    | .live r => some (search_single_trial_query v r)

/-- The instrumented run of `ClinicalTrialsConnector.search_trials`
(trials.py 11-57). -/
def searchTrialsRun (query : String) (maxr : Nat)
    (world : String → VarCall Trial) : FanoutRun Trial String :=
  fanoutRun (fun t => t.nct_id) (fun k => !(k == "")) maxr
    (prepareInputs world (generate_trial_search_variations query))

/-- The dict returned by `search_trials` (trials.py 48-53). -/
structure SearchTrialsResult where
  trials : List Trial
  total_count : Nat
  search_method : String
  query : String
deriving DecidableEq, Repr

/-- Caller-visible result of `search_trials`:
`final_trials = all_trials[:max_results]` plus the metadata fields
(trials.py 44-53). -/
def search_trials (query : String) (maxr : Nat)
    (world : String → VarCall Trial) : SearchTrialsResult :=
  { trials := (searchTrialsRun query maxr world).records.take maxr,
    total_count := ((searchTrialsRun query maxr world).records.take maxr).length,
    search_method := "multi-variation dynamic search",
    query := query }

end Trials

namespace PubChem

/-- Python regex word character (`\w` over the ASCII inputs involved). -/
def isWordChar (c : Char) : Bool := c.isAlphanum || c == '_'

/-- End-of-match word boundary: the character following the match, if
any, is not a word character. -/
def endBoundary (a s : List Char) : Bool :=
  match (s.drop a.length).head? with
  | none => true
  | some d => !isWordChar d

/-- Left-to-right scan of `re.findall(r'\b(alt1|alt2|...)\b', s)` for
alternatives made of word characters (and internal spaces): at each
position with a word boundary on the left, the first alternative matching
with a word boundary on the right is emitted and the scan resumes after
it.  `fuel` is always instantiated with the length of the scanned list,
which suffices because every step consumes at least one character. -/
def findAltsGo (alts : List (List Char)) : Nat → Option Char → List Char →
    List (List Char)
  | _, _, [] => []
  | 0, _, _ => []
  | fuel + 1, prev, c :: cs =>
    match (if (match prev with
               | none => true
               | some p => !isWordChar p) then
             alts.find? (fun a =>
               !a.isEmpty && a.isPrefixOf (c :: cs) && endBoundary a (c :: cs))
           else none) with
    | some a => a :: findAltsGo alts fuel (some (a.getLastD c)) ((c :: cs).drop a.length)
    | none => findAltsGo alts fuel (some c) cs

/-- `re.findall` of one word-boundary alternation pattern. -/
def findAlts (alts : List String) (s : String) : List String :=
  (findAltsGo (alts.map String.data) s.data.length none s.data).map (fun l => ⟨l⟩)

/-- Literal phrases removed by `_extract_biomedical_terms`
(pubchem.py 252-264). -/
def phrasesToRemove : List String :=
  ["can you give me information on", "can you tell me about",
   "can you analyze", "please tell me about", "i want to know about",
   "give me information on", "tell me about",
   "analyze recent research papers on", "research papers on",
   "studies on", "information about"]

/-- Alternation groups of the `disease_patterns` (pubchem.py 274-283). -/
def diseasePatterns : List (List String) :=
  [["hiv", "aids"],
   ["cancer", "tumor", "oncology", "carcinoma"],
   ["diabetes", "diabetic"],
   ["alzheimer", "dementia"],
   ["hypertension", "high blood pressure"],
   ["heart disease", "cardiovascular"],
   ["asthma", "respiratory"],
   ["arthritis", "rheumatoid"]]

/-- Alternation groups of the `drug_patterns` (pubchem.py 290-296). -/
def drugPatterns : List (List String) :=
  [["aspirin", "ibuprofen", "acetaminophen"],
   ["metformin", "insulin", "glucose"],
   ["tenofovir", "emtricitabine", "efavirenz"],
   ["donepezil", "memantine"],
   ["lisinopril", "amlodipine"]]

/-- Alternation groups of the `molecule_patterns` (pubchem.py 303-308). -/
def moleculePatterns : List (List String) :=
  [["protein", "enzyme", "receptor"],
   ["dna", "rna", "gene"],
   ["antibody", "immunoglobulin"],
   ["kinase", "phosphatase"]]

/-- The dedup pass of `_extract_biomedical_terms` (pubchem.py 315-321):
strip each term, keep it when non-empty, longer than two characters and
unseen. -/
def cleanTermsGo (seen : List String) : List String → List String
  | [] => []
  | t :: ts =>
    if Py.strip t ≠ "" ∧ 2 < (Py.strip t).data.length ∧ Py.strip t ∉ seen then
      Py.strip t :: cleanTermsGo (Py.strip t :: seen) ts
    else cleanTermsGo seen ts

/-- Stop words filtered from the meaningful-word fallback
(pubchem.py 329). -/
def fallbackStopWords : List String :=
  ["that", "this", "with", "from", "they", "have", "been", "were", "will",
   "would"]

/-- Embeds `PubChemConnector._extract_biomedical_terms`
(pubchem.py 242-336). -/
def extract_biomedical_terms (query : String) : List String :=
  let query_lower := Py.strip (Py.lower query)
  let clean_query := phrasesToRemove.foldl
    (fun s p => Py.strip (Py.replace s p "")) query_lower
  let biomedical_terms :=
    (diseasePatterns.map (fun alts => findAlts alts clean_query)).flatten ++
    (drugPatterns.map (fun alts => findAlts alts clean_query)).flatten ++
    (moleculePatterns.map (fun alts => findAlts alts clean_query)).flatten
  let clean_terms := cleanTermsGo [] biomedical_terms
  if clean_terms = [] then
    let biomedical_words := (Py.words clean_query).filter
      (fun w => 3 < w.data.length ∧ w ∉ fallbackStopWords)
    if biomedical_words = [] then [] else biomedical_words.take 3
  else clean_terms

/-- Run environment of the pubchem variation generator: the OpenAI key,
the completion the AI-enhancement call would produce (`none` models the
call failing), and — because `_extract_drug_names_from_literature` orders
its result through Python `set` iteration, which depends on the
interpreter's hash seed — the literature drug-name extraction is an
oracle of the run as well. -/
structure PCEnv where
  openai_api_key : Option String
  ai_completion : Option String
  lit_drug_names : String → String → List String

/-- Embeds `PubChemConnector._ai_enhance_compound_queries`
(pubchem.py 198-240): no key or any failure yields `[]`; a completion is
split into lines, stripped, filtered non-empty and capped at three. -/
def ai_enhance_compound_queries (env : PCEnv) : List String :=
  match env.openai_api_key with
  | none => []
  | some _ =>
    match env.ai_completion with
    | none => []
    | some content =>
      (((Py.splitChar '\n' (Py.strip content)).map Py.strip).filter
        (fun q => q ≠ "")).take 3

/-- Stop words stripped by substring replacement in
`_generate_compound_search_variations` (pubchem.py 110-112). -/
def compoundStopWords : List String :=
  ["can", "you", "give", "me", "information", "on", "about", "tell", "show",
   "get", "need", "want", "please", "analyze", "research", "papers", "studies"]

/-- Embeds `PubChemConnector._generate_compound_search_variations`
(pubchem.py 98-196). -/
def generate_compound_search_variations (query : String)
    (litCtx : Option String) (env : PCEnv) : List String :=
  let clean_terms := extract_biomedical_terms query
  let base := if clean_terms ≠ [] then clean_terms else [query]
  let cq0 := Py.strip (Py.lower query)
  let cq := compoundStopWords.foldl (fun s w => Py.strip (Py.replace s w "")) cq0
  let vCleaned := if cq ≠ "" ∧ cq ≠ cq0 then [cq] else []
  let b1 := if Py.contains cq "cancer" || Py.contains cq "tumor" ||
               Py.contains cq "oncology" then
      [cq ++ " chemotherapy", cq ++ " anticancer", cq ++ " cytotoxic",
       "doxorubicin", "paclitaxel", "cisplatin", "carboplatin"] else []
  let b2 := if Py.contains cq "diabetes" || Py.contains cq "insulin" ||
               Py.contains cq "glucose" then
      [cq ++ " antidiabetic", cq ++ " hypoglycemic",
       "metformin", "insulin", "glipizide", "pioglitazone"] else []
  let b3 := if Py.contains cq "hiv" || Py.contains cq "aids" ||
               Py.contains cq "antiretroviral" then
      [cq ++ " antiviral", cq ++ " antiretroviral",
       "tenofovir", "emtricitabine", "efavirenz", "ritonavir"] else []
  let b4 := if Py.contains cq "alzheimer" || Py.contains cq "dementia" ||
               Py.contains cq "cognitive" then
      [cq ++ " cognitive enhancer", cq ++ " neuroprotective",
       "donepezil", "memantine", "galantamine", "rivastigmine"] else []
  let b5 := if Py.contains cq "hypertension" || Py.contains cq "blood pressure" then
      [cq ++ " antihypertensive",
       "lisinopril", "amlodipine", "losartan", "hydrochlorothiazide"] else []
  let b6 := if Py.contains cq "protein" || Py.contains cq "enzyme" ||
               Py.contains cq "receptor" then
      [cq ++ " inhibitor", cq ++ " antagonist", cq ++ " modulator"] else []
  let b7 := if Py.contains cq "antibiotic" || Py.contains cq "antimicrobial" then
      [cq ++ " antibacterial",
       "penicillin", "amoxicillin", "azithromycin", "ciprofloxacin"] else []
  let b8 := if Py.contains cq "anti-inflammatory" || Py.contains cq "inflammation" then
      [cq ++ " NSAID", "ibuprofen", "aspirin", "naproxen", "celecoxib"] else []
  let lit := match litCtx with
    | none => []
    | some ctx => (env.lit_drug_names ctx query).take 3
  let ai := ai_enhance_compound_queries env
  let vAi := if ai ≠ [] then ai else []
  dedupCap (base ++ vCleaned ++ b1 ++ b2 ++ b3 ++ b4 ++ b5 ++ b6 ++ b7 ++ b8 ++
    lit ++ vAi)

/-- Caller-visible result of `PubChemConnector.search_compounds`
(pubchem.py 19-66): the accumulation loop over the variation list, keyed
by the integer `cid` (a record with a falsy — zero — cid is discarded),
truncated to `max_results`.  The oracle `world` maps a variation to
`none` when `_search_single_compound_query` raises and to the record
list it returns otherwise. -/
def search_compounds (query : String) (maxr : Nat) (litCtx : Option String)
    (env : PCEnv) (world : String → Option (List Compound)) : List Compound :=
  (fanoutRun (fun c => c.cid) (fun k => !(k == 0)) maxr
    ((generate_compound_search_variations query litCtx env).map world)).records.take maxr

end PubChem

namespace Rag

/-- Effect of `re.sub(r'[^.!?]*$', '', response)` (rag.py 272): drop the
maximal trailing run of characters that are not `.`, `!` or `?`. -/
def dropTrailingNonPunct (s : String) : String :=
  ⟨(s.data.reverse.dropWhile (fun c => !(c == '.' || c == '!' || c == '?'))).reverse⟩

/-- The TL;DR presence test of rag.py 280:
`"TL;DR" not in response and "tldr" not in response.lower()` negated. -/
def containsMarker (s : String) : Bool :=
  Py.contains s "TL;DR" || Py.contains (Py.lower s) "tldr"

/-- Leading literal part of the appended TL;DR template (rag.py 290). -/
def tldrHead : String := "\n\n**TL;DR:** "

/-- Trailing literal part of the appended TL;DR template (rag.py 290). -/
def tldrTail : String :=
  " research shows significant progress with promising clinical outcomes. Key advances include improved therapeutic approaches and better patient management strategies, though further studies are needed for long-term validation."

/-- Python `" ".join(topic)`. -/
def joinSpace : List String → String
  | [] => ""
  | [x] => x
  | x :: xs => x ++ " " ++ joinSpace xs

/-- The final normalization phase of `_clean_cerebras_response`
(rag.py 271-292): remove a trailing incomplete sentence, strip, force a
terminating punctuation mark, and append a templated TL;DR section when
no marker is present. -/
def finalizeResponse (s : String) : String :=
  let r2 := Py.strip (dropTrailingNonPunct s)
  let r3 := if Py.endsWithPunct r2 then r2 else r2 ++ "."
  if containsMarker r3 then r3
  else
    let first_line := (Py.splitChar '\n' r3).headD ⟨r3.data.take 100⟩
    let ws := Py.words first_line
    let topic_text := joinSpace (if 3 ≤ ws.length then ws.take 3 else ["research"])
    Py.rstripSet r3 ['.', '!', '?'] ++ (tldrHead ++ topic_text ++ tldrTail)

/-- Embeds `_clean_cerebras_response` (rag.py 224-292).  The
boilerplate-stripping middle phase (rag.py 234-269: corrupted-token and
instruction-leak `re.sub` patterns, whitespace collapsing, duplicate
TL;DR removal) is abstracted as an arbitrary string transformation
`pipeline`; the theorems below hold for every such transformation, hence
in particular for the concrete one in the source. -/
def clean_cerebras_response (pipeline : String → String) (response : String) :
    String :=
  if response = "" then "No response generated"
  else finalizeResponse (pipeline (Py.strip response))

/-- Outcome of one attempt of the `client.post` call inside
`call_cerebras_api` (rag.py 142-160). -/
inductive PrimaryOutcome where
  | success : Option String → PrimaryOutcome
  | rateLimited : PrimaryOutcome
  | httpError : PrimaryOutcome
  | timeout : PrimaryOutcome

/-- Environment of one enrichment call: configured keys, the behaviour of
each successive primary attempt, and the behaviour of the OpenAI
fallback (`none` = the call raised; `some c` = it returned a message
whose content is `c`, with `c = none` modelling a null content, which
makes the subsequent `len(result)` raise). -/
structure LlmEnv where
  cerebras_api_key : Option String
  primary : Nat → PrimaryOutcome
  openai_api_key : Option String
  openai_completion : Option (Option String)

/-- The static templated summary returned when even the OpenAI fallback
fails (rag.py 222). -/
def staticSummary : String :=
  "Based on the available research data, I can provide a comprehensive analysis of your query. The literature suggests multiple therapeutic approaches and ongoing clinical investigations in this area."

/-- Embeds `fallback_to_openai` (rag.py 199-222). -/
def fallback_to_openai (env : LlmEnv) : String :=
  match env.openai_api_key with
  | none => "Research analysis temporarily unavailable. Please try again."
  | some _ =>
    match env.openai_completion with
    | none => staticSummary
    | some none => staticSummary
    | some (some s) => s

/-- The `for attempt in range(4)` retry loop of `call_cerebras_api`
(rag.py 142-160), driven by the remaining attempt indices: a success
breaks out with the raw completion, a timeout or a non-429 HTTP error
escapes to the outer handlers, a 429 retries while `attempt < 3` and
re-raises on the last attempt.  Returns the loop outcome together with
the number of attempts performed. -/
def primaryGo (pr : Nat → PrimaryOutcome) : List Nat →
    Option (Option String) × Nat
  | [] => (none, 0)
  | i :: rest =>
    match pr i with
    | .success raw => (some raw, 1)
    | .timeout => (none, 1)
    | .httpError => (none, 1)
    | .rateLimited =>
      if i < 3 then ((primaryGo pr rest).1, (primaryGo pr rest).2 + 1)
      else (none, 1)

/-- Embeds `call_cerebras_api` (rag.py 109-197): missing key short-circuits
with a fixed message; otherwise the retry loop runs and either the raw
completion (with the `"No response generated"` default for a missing
`text` field, rag.py 163) is cleaned and returned, or — on timeout,
HTTP error or exhausted 429 retries — `fallback_to_openai` is consulted.
Returns the caller-visible text and the number of primary attempts. -/
def call_cerebras_api (pipeline : String → String) (env : LlmEnv) :
    String × Nat :=
  match env.cerebras_api_key with
  | none =>
    ("I'm currently unable to access my AI capabilities. Please try again later.", 0)
  | some _ =>
    match primaryGo env.primary [0, 1, 2, 3] with
    | (some raw, n) =>
      (clean_cerebras_response pipeline (raw.getD "No response generated"), n)
    | (none, n) => (fallback_to_openai env, n)

end Rag

theorem data_append (a b : String) : (a ++ b).data = a.data ++ b.data := rfl

theorem isPrefixOf_append_ext (p : List Char) :
    ∀ (s t : List Char), p.isPrefixOf s = true → p.isPrefixOf (s ++ t) = true := by
  induction p with
  | nil => intro s t _; simp [List.isPrefixOf]
  | cons a as ih =>
    intro s t h
    match s with
    | [] => simp [List.isPrefixOf] at h
    | b :: bs =>
      simp only [List.isPrefixOf, Bool.and_eq_true] at h ⊢
      exact ⟨h.1, ih bs t h.2⟩

theorem hasSub_append_right (pat b : List Char) :
    ∀ (a : List Char), Py.hasSub b pat = true → Py.hasSub (a ++ b) pat = true := by
  intro a
  induction a with
  | nil => intro h; simpa using h
  | cons c a' ih =>
    intro h
    rw [List.cons_append, Py.hasSub]
    simp only [Bool.or_eq_true]
    exact Or.inr (ih h)

theorem hasSub_append_left (pat : List Char) :
    ∀ (a b : List Char), Py.hasSub a pat = true → Py.hasSub (a ++ b) pat = true := by
  intro a
  induction a with
  | nil =>
    intro b h
    rw [Py.hasSub] at h
    have hp : pat = [] := by
      cases pat with
      | nil => rfl
      | cons x xs => simp [List.isPrefixOf] at h
    subst hp
    cases b with
    | nil => exact h
    | cons x xs => rw [List.nil_append, Py.hasSub]; simp [List.isPrefixOf]
  | cons c a' ih =>
    intro b h
    rw [Py.hasSub] at h
    simp only [Bool.or_eq_true] at h
    rw [List.cons_append, Py.hasSub]
    simp only [Bool.or_eq_true]
    rcases h with h | h
    · exact Or.inl (by
        have := isPrefixOf_append_ext pat (c :: a') b h
        simpa using this)
    · exact Or.inr (ih b h)

theorem contains_append_right (a b pat : String)
    (h : Py.contains b pat = true) : Py.contains (a ++ b) pat = true := by
  rw [Py.contains, data_append]
  exact hasSub_append_right _ _ _ h

theorem contains_append_left (a b pat : String)
    (h : Py.contains a pat = true) : Py.contains (a ++ b) pat = true := by
  rw [Py.contains, data_append]
  exact hasSub_append_left _ _ _ h

theorem endsWithPunct_append (x y : String) (h : Py.endsWithPunct y = true) :
    Py.endsWithPunct (x ++ y) = true := by
  rw [Py.endsWithPunct] at h ⊢
  rw [data_append]
  have hne : y.data ≠ [] := by
    intro hnil
    rw [hnil] at h
    simp at h
  rw [List.getLast?_append_of_ne_nil _ hne]
  exact h

theorem endsWithPunct_period (x : String) :
    Py.endsWithPunct (x ++ ".") = true := by
  apply endsWithPunct_append
  rfl

namespace Rag

theorem finalizeResponse_endsWithPunct (s : String) :
    Py.endsWithPunct (finalizeResponse s) = true := by
  rw [finalizeResponse]
  set r2 := Py.strip (dropTrailingNonPunct s) with hr2
  by_cases hp : Py.endsWithPunct r2 = true
  · simp only [hp, if_true]
    by_cases hm : containsMarker r2 = true
    · simp only [hm, if_true]
      exact hp
    · simp only [hm, Bool.false_eq_true, if_false]
      apply endsWithPunct_append
      apply endsWithPunct_append
      rfl
  · simp only [hp, Bool.false_eq_true, if_false]
    by_cases hm : containsMarker (r2 ++ ".") = true
    · simp only [hm, if_true]
      exact endsWithPunct_period r2
    · simp only [hm, Bool.false_eq_true, if_false]
      apply endsWithPunct_append
      apply endsWithPunct_append
      rfl

theorem finalizeResponse_marker (s : String) :
    containsMarker (finalizeResponse s) = true := by
  rw [finalizeResponse]
  set r2 := Py.strip (dropTrailingNonPunct s) with hr2
  have key : ∀ (r3 : String), (if containsMarker r3 = true then r3
      else Py.rstripSet r3 ['.', '!', '?'] ++
        (tldrHead ++ joinSpace (if 3 ≤ (Py.words ((Py.splitChar '\n' r3).headD
          ⟨r3.data.take 100⟩)).length then
            (Py.words ((Py.splitChar '\n' r3).headD ⟨r3.data.take 100⟩)).take 3
          else ["research"]) ++ tldrTail)) |> (fun r => containsMarker r = true) := by
    intro r3
    by_cases hm : containsMarker r3 = true
    · simp only [hm, if_true]
    · simp only [hm, Bool.false_eq_true, if_false]
      rw [containsMarker]
      simp only [Bool.or_eq_true]
      refine Or.inl ?_
      apply contains_append_right
      apply contains_append_left
      apply contains_append_left
      decide
  by_cases hp : Py.endsWithPunct r2 = true
  · simpa [hp] using key r2
  · simpa [hp] using key (r2 ++ ".")

theorem finalizeResponse_ne_empty (s : String) : finalizeResponse s ≠ "" := by
  intro h
  have := finalizeResponse_endsWithPunct s
  rw [h] at this
  simp [Py.endsWithPunct] at this

theorem clean_cerebras_response_ne_empty (pipeline : String → String)
    (response : String) : clean_cerebras_response pipeline response ≠ "" := by
  rw [clean_cerebras_response]
  split_ifs with h
  · intro hc
    simp at hc
  · exact finalizeResponse_ne_empty _

theorem primaryGo_attempts_le (pr : Nat → PrimaryOutcome) :
    ∀ l : List Nat, (primaryGo pr l).2 ≤ l.length := by
  intro l
  induction l with
  | nil => simp [primaryGo]
  | cons i rest ih =>
    rw [primaryGo]
    match pr i with
    | .success raw => simp
    | .timeout => simp
    | .httpError => simp
    | .rateLimited =>
      split_ifs
      · simpa using Nat.add_le_add_right ih 1
      · simp

theorem primaryGo_all429 (pr : Nat → PrimaryOutcome)
    (h : ∀ i, pr i = PrimaryOutcome.rateLimited) :
    primaryGo pr [0, 1, 2, 3] = (none, 4) := by
  simp [primaryGo, h 0, h 1, h 2, h 3]

end Rag

/-!
Concrete fixtures used by witnesses and counterexamples.
-/

/-- A concrete parsed article. -/
def pmArticleA : Article :=
  { pmid := "1", title := "T", authors := "A", abstract := "Abs",
    journal := "J", publication_date := "2024", doi := "D", url := "U",
    mesh_terms := [], citation_count := 0 }

/-- A world in which every variation parses to the single article above. -/
def pmWorldParsed : String → VarCall Article :=
  fun _ => VarCall.live (LiveResult.parsed [pmArticleA])

/-- A world in which every live call fails (timeout / non-2xx / parse). -/
def pmWorldFail : String → VarCall Article :=
  fun _ => VarCall.live LiveResult.apiError

/-- A world in which the first pubmed variation of query `"x"` raises out
of `_search_single_query` and every other variation parses to nothing. -/
def pmWorldRaisesFirst : String → VarCall Article :=
  fun v => if v = "x" then VarCall.raises else VarCall.live (LiveResult.parsed [])

/-- A concrete parsed trial. -/
def trTrialA : Trial :=
  { nct_id := "NCT1", title := "T", status := "S", phase := "P",
    conditions := [], interventions := [], locations := [],
    start_date := "2024", completion_date := "2025", url := "U",
    sponsor := "Sp" }

/-- A world in which every trials variation parses to the trial above. -/
def trWorldParsed : String → VarCall Trial :=
  fun _ => VarCall.live (LiveResult.parsed [trTrialA])

/-- A world in which every trials live call fails. -/
def trWorldFail : String → VarCall Trial :=
  fun _ => VarCall.live LiveResult.apiError

/-- A concrete compound record. -/
def pcCompoundA : Compound := { cid := 5, name := "c" }

/-- A pubchem world returning the compound above for every variation. -/
def pcWorldA : String → Option (List Compound) := fun _ => some [pcCompoundA]

/-- A pubchem environment with the AI enhancement disabled and an
arbitrary literature oracle. -/
def pcEnvA : PubChem.PCEnv :=
  { openai_api_key := none, ai_completion := some "x",
    lit_drug_names := fun _ _ => ["a"] }

/-- A second disabled-AI environment differing from `pcEnvA` in every
oracle component. -/
def pcEnvB : PubChem.PCEnv :=
  { openai_api_key := none, ai_completion := none,
    lit_drug_names := fun _ _ => ["b"] }

/-- An enrichment environment whose primary endpoint is always rate
limited and whose secondary succeeds. -/
def llmEnvAll429 : Rag.LlmEnv :=
  { cerebras_api_key := some "k",
    primary := fun _ => Rag.PrimaryOutcome.rateLimited,
    openai_api_key := some "k2",
    openai_completion := some (some "hello") }

/-- An enrichment environment whose primary endpoint times out and whose
secondary succeeds with an empty completion. -/
def llmEnvTimeoutEmpty : Rag.LlmEnv :=
  { cerebras_api_key := some "k",
    primary := fun _ => Rag.PrimaryOutcome.timeout,
    openai_api_key := some "k2",
    openai_completion := some (some "") }

/-!
Claim theorems.
-/

/-- Claim C1: for every connector search call and every sequence of
per-variation result lists, the returned record list contains no two
records with the same natural key (PMID for literature, NCT ID for
trials): a record whose key was already accumulated in the same request
is discarded. -/
theorem claim_C1_dedup_invariant :
    (∀ (q : String) (maxr : Nat) (world : String → VarCall Article),
      ((PubMed.search_articles q maxr world).map (fun a => a.pmid)).Nodup) ∧
    (∀ (q : String) (maxr : Nat) (world : String → VarCall Trial),
      ((Trials.search_trials q maxr world).trials.map (fun t => t.nct_id)).Nodup) := by
  constructor
  · intro q maxr world
    rw [PubMed.search_articles, List.map_take]
    exact List.Nodup.sublist (List.take_sublist _ _)
      (fanoutRun_keys_nodup _ _ _ _)
  · intro q maxr world
    show (((Trials.searchTrialsRun q maxr world).records.take maxr).map
      (fun t => t.nct_id)).Nodup
    rw [List.map_take]
    exact List.Nodup.sublist (List.take_sublist _ _)
      (fanoutRun_keys_nodup _ _ _ _)

/-- Claim C2: for every connector search call with caller-supplied
`max_results` and any per-variation result lists, the length of the
returned record list is at most `max_results` (the accumulator is
truncated to `max_results` before return). -/
theorem claim_C2_truncation_invariant :
    (∀ (q : String) (maxr : Nat) (world : String → VarCall Article),
      (PubMed.search_articles q maxr world).length ≤ maxr) ∧
    (∀ (q : String) (maxr : Nat) (world : String → VarCall Trial),
      (Trials.search_trials q maxr world).trials.length ≤ maxr) := by
  constructor
  · intro q maxr world
    rw [PubMed.search_articles, List.length_take]
    exact Nat.min_le_left _ _
  · intro q maxr world
    show ((Trials.searchTrialsRun q maxr world).records.take maxr).length ≤ maxr
    rw [List.length_take]
    exact Nat.min_le_left _ _

/-- Claim C4: for every input term, the query variation generator returns
an ordered list of at most 5 search strings that contains no duplicates
and whose first element is the original term (pubmed and trials
generators). -/
theorem claim_C4_variation_generator :
    (∀ q : String,
      (PubMed.generate_search_variations q).length ≤ 5 ∧
      (PubMed.generate_search_variations q).Nodup ∧
      (PubMed.generate_search_variations q).head? = some q) ∧
    (∀ q : String,
      (Trials.generate_trial_search_variations q).length ≤ 5 ∧
      (Trials.generate_trial_search_variations q).Nodup ∧
      (Trials.generate_trial_search_variations q).head? = some q) := by
  constructor
  · intro q
    refine ⟨?_, ?_, ?_⟩
    · rw [PubMed.generate_search_variations]
      exact dedupCap_length _
    · rw [PubMed.generate_search_variations]
      exact dedupCap_nodup _
    · obtain ⟨t, ht⟩ := PubMed.generate_search_variations_head q
      rw [ht]
      rfl
  · intro q
    refine ⟨?_, ?_, ?_⟩
    · rw [Trials.generate_trial_search_variations]
      exact dedupCap_length _
    · rw [Trials.generate_trial_search_variations]
      exact dedupCap_nodup _
    · obtain ⟨t, ht⟩ := Trials.generate_trial_search_variations_head q
      rw [ht]
      rfl

/-- Claim C6: within one fanout request the returned records appear in
first-seen order across variations — the result is exactly the one-pass
first-occurrence dedup of the stream of records the loop consumed,
truncated to `max_results`, and is in particular a subsequence of that
stream: no relevance re-ranking or re-sorting is applied. -/
theorem claim_C6_first_seen_order :
    ∀ (q : String) (maxr : Nat) (world : String → VarCall Article),
      PubMed.search_articles q maxr world =
        (dedupFirstSeen (fun a => a.pmid) (fun k => !(k == "")) []
          (PubMed.searchArticlesRun q maxr world).stream).take maxr ∧
      List.Sublist (PubMed.search_articles q maxr world)
        (PubMed.searchArticlesRun q maxr world).stream := by
  intro q maxr world
  constructor
  · rw [PubMed.search_articles, PubMed.searchArticlesRun, fanoutRun_records]
  · exact List.Sublist.trans (List.take_sublist _ _)
      (fanoutRun_records_sublist_stream _ _ _ _)

/-- Claim C10: every record in a connector's returned result list carries
a non-empty (truthy) natural key; a parsed record whose natural key is
missing or empty (zero, for the integer pubchem CID) is silently
discarded by the accumulation loop and never appears in the
caller-visible result. -/
theorem claim_C10_nonempty_natural_keys :
    (∀ (q : String) (maxr : Nat) (world : String → VarCall Article),
      ∀ a ∈ PubMed.search_articles q maxr world, a.pmid ≠ "") ∧
    (∀ (q : String) (maxr : Nat) (world : String → VarCall Trial),
      ∀ t ∈ (Trials.search_trials q maxr world).trials, t.nct_id ≠ "") ∧
    (∀ (q : String) (maxr : Nat) (litCtx : Option String)
       (env : PubChem.PCEnv) (world : String → Option (List Compound)),
      ∀ c ∈ PubChem.search_compounds q maxr litCtx env world, c.cid ≠ 0) := by
  refine ⟨?_, ?_, ?_⟩
  · intro q maxr world a ha
    have hmem : a ∈ (PubMed.searchArticlesRun q maxr world).records :=
      (List.take_sublist _ _).subset ha
    have := fanoutRun_keys_ok _ _ _ _ a hmem
    simpa using this
  · intro q maxr world t ht
    have hmem : t ∈ (Trials.searchTrialsRun q maxr world).records :=
      (List.take_sublist _ _).subset ht
    have := fanoutRun_keys_ok _ _ _ _ t hmem
    simpa using this
  · intro q maxr litCtx env world c hc
    have hmem : c ∈ (fanoutRun (fun c => c.cid) (fun k => !(k == 0)) maxr
        ((PubChem.generate_compound_search_variations q litCtx env).map
          world)).records :=
      (List.take_sublist _ _).subset hc
    have := fanoutRun_keys_ok _ _ _ _ c hmem
    simpa using this


/-- Witness for claim C10 at a concrete connector call each. -/
theorem claim_C10_nonempty_natural_keys_witness :
    pmArticleA.pmid ≠ "" ∧ trTrialA.nct_id ≠ "" ∧ pcCompoundA.cid ≠ 0 :=
  ⟨claim_C10_nonempty_natural_keys.1 "aspirin" 1 pmWorldParsed pmArticleA
      (by decide),
   claim_C10_nonempty_natural_keys.2.1 "aspirin" 1 trWorldParsed trTrialA
      (by decide),
   claim_C10_nonempty_natural_keys.2.2 "aspirin" 1 none pcEnvA pcWorldA
      pcCompoundA (by decide)⟩

/-- Claim C5, amended: provided `max_results ≥ 1`, the fanout loop stops
iterating variations as soon as the accumulator holds at least
`max_results` unique records — if the accumulator would already hold at
least `max_results` records after the first `i` variations were
processed, at most `i` variations are queried.  (For `max_results = 0`
the code can query a further variation after a raising variation, see
the counterexample.) -/
theorem claim_C5_early_stop :
    (∀ (q : String) (maxr : Nat) (world : String → VarCall Article) (i : Nat),
      1 ≤ maxr →
      maxr ≤ (accNoBreakFrom (fun a => a.pmid) (fun k => !(k == "")) ([], [])
        ((PubMed.prepareInputs world
          (PubMed.generate_search_variations q)).take i)).1.length →
      (PubMed.searchArticlesRun q maxr world).queried ≤ i) ∧
    (∀ (q : String) (maxr : Nat) (world : String → VarCall Trial) (i : Nat),
      1 ≤ maxr →
      maxr ≤ (accNoBreakFrom (fun t => t.nct_id) (fun k => !(k == "")) ([], [])
        ((Trials.prepareInputs world
          (Trials.generate_trial_search_variations q)).take i)).1.length →
      (Trials.searchTrialsRun q maxr world).queried ≤ i) := by
  constructor
  · intro q maxr world i hmax h
    rw [PubMed.searchArticlesRun, fanoutRun]
    have := fanoutGo_no_overrun (fun a => a.pmid) (fun k => !(k == "")) maxr
      (PubMed.prepareInputs world (PubMed.generate_search_variations q))
      ⟨[], [], 0, []⟩ i (by simpa using hmax) h
    simpa using this
  · intro q maxr world i hmax h
    rw [Trials.searchTrialsRun, fanoutRun]
    have := fanoutGo_no_overrun (fun t => t.nct_id) (fun k => !(k == "")) maxr
      (Trials.prepareInputs world (Trials.generate_trial_search_variations q))
      ⟨[], [], 0, []⟩ i (by simpa using hmax) h
    simpa using this

/-- Counterexample to claim C5 as stated: with `max_results = 0` and a
first variation that raises out of the single-query call, the
accumulator holds at least `max_results` (zero, vacuously) records after
the first variation was processed, yet a second variation is queried
(`queried = 2`). -/
theorem claim_C5_counterexample :
    (accNoBreakFrom (fun a => a.pmid) (fun k => !(k == "")) ([], [])
      ((PubMed.prepareInputs pmWorldRaisesFirst
        (PubMed.generate_search_variations "x")).take 1)).1.length = 0 ∧
    (PubMed.searchArticlesRun "x" 0 pmWorldRaisesFirst).queried = 2 := by
  decide

/-- Witness for the amended claim C5 at a concrete call. -/
theorem claim_C5_early_stop_witness :
    (PubMed.searchArticlesRun "x" 1 pmWorldParsed).queried ≤ 1 :=
  claim_C5_early_stop.1 "x" 1 pmWorldParsed 1 (by decide) (by decide)

theorem str_append_empty (s : String) : s ++ "" = s := by
  cases s with
  | mk l => exact congrArg String.mk (List.append_nil l)

theorem fanoutGo_noop [DecidableEq κ] (key : α → κ) (ok : κ → Bool)
    (maxr : Nat) :
    ∀ (inputs : List (Option (List α))) (s : FanoutRun α κ),
      (∀ out, some out ∈ inputs →
        addAll key ok (s.records, s.seen) out = (s.records, s.seen)) →
      (fanoutGo key ok maxr inputs s).records = s.records := by
  intro inputs
  induction inputs with
  | nil => intro s _; rfl
  | cons inp rest ih =>
    intro s h
    match inp with
    | none =>
      exact ih ⟨s.records, s.seen, s.queried + 1, s.stream⟩
        (fun out hm => h out (List.mem_cons_of_mem _ hm))
    | some out =>
      have hadd : addAll key ok (s.records, s.seen) out = (s.records, s.seen) :=
        h out (List.mem_cons_self _ _)
      have hrec : (fanoutStep key ok s out).records = s.records := by
        rw [fanoutStep]
        rw [hadd]
      have hseen : (fanoutStep key ok s out).seen = s.seen := by
        rw [fanoutStep]
        rw [hadd]
      rw [fanoutGo]
      split_ifs with hbr
      · exact hrec
      · rw [ih (fanoutStep key ok s out)
          (fun out' hm => by
            rw [hrec, hseen]
            exact h out' (List.mem_cons_of_mem _ hm))]
        exact hrec

theorem pm_addAll_init (q : String) :
    addAll (fun a => a.pmid) (fun k => !(k == "")) ([], [])
      (PubMed.get_fallback_data q) =
      (PubMed.get_fallback_data q, ["87654321", "12345678"]) := by
  simp [PubMed.get_fallback_data, addAll, step1]

theorem pm_addAll_noop (q v : String) :
    addAll (fun a => a.pmid) (fun k => !(k == ""))
      (PubMed.get_fallback_data q, ["87654321", "12345678"])
      (PubMed.get_fallback_data v) =
      (PubMed.get_fallback_data q, ["87654321", "12345678"]) := by
  simp [PubMed.get_fallback_data, addAll, step1]

theorem tr_addAll_init (q : String) :
    addAll (fun t => t.nct_id) (fun k => !(k == "")) ([], [])
      (Trials.get_fallback_trials q) =
      (Trials.get_fallback_trials q,
        ["NCT11223344", "NCT87654321", "NCT12345678"]) := by
  simp [Trials.get_fallback_trials, addAll, step1]

theorem tr_addAll_noop (q v : String) :
    addAll (fun t => t.nct_id) (fun k => !(k == ""))
      (Trials.get_fallback_trials q,
        ["NCT11223344", "NCT87654321", "NCT12345678"])
      (Trials.get_fallback_trials v) =
      (Trials.get_fallback_trials q,
        ["NCT11223344", "NCT87654321", "NCT12345678"]) := by
  simp [Trials.get_fallback_trials, addAll, step1]

/-- Under an all-failing world, the pubmed accumulator ends up holding
exactly the fallback records for the original query: the first variation
is the query itself, and every later variation's fallback records are
discarded as duplicates. -/
theorem pm_records_all_fail (q : String) (maxr : Nat)
    (world : String → VarCall Article)
    (hall : ∀ v, world v = VarCall.live LiveResult.apiError) :
    (PubMed.searchArticlesRun q maxr world).records =
      PubMed.get_fallback_data q := by
  obtain ⟨rest, hvars⟩ := PubMed.generate_search_variations_head q
  rw [PubMed.searchArticlesRun, fanoutRun, PubMed.prepareInputs, hvars]
  simp only [List.map_cons, hall, PubMed.search_single_query]
  rw [fanoutGo]
  have hstep : fanoutStep (fun a => a.pmid) (fun k => !(k == ""))
      ⟨[], [], 0, []⟩ (PubMed.get_fallback_data q) =
      ⟨PubMed.get_fallback_data q, ["87654321", "12345678"], 1,
        [] ++ PubMed.get_fallback_data q⟩ := by
    rw [fanoutStep]
    rw [pm_addAll_init]
  rw [hstep]
  split_ifs with hbr
  · rfl
  · rw [fanoutGo_noop]
    intro out hm
    simp only [List.mem_map] at hm
    obtain ⟨v, _, hv⟩ := hm
    cases hv
    exact pm_addAll_noop q v

/-- Trials version of `pm_records_all_fail`. -/
theorem tr_records_all_fail (q : String) (maxr : Nat)
    (world : String → VarCall Trial)
    (hall : ∀ v, world v = VarCall.live LiveResult.apiError) :
    (Trials.searchTrialsRun q maxr world).records =
      Trials.get_fallback_trials q := by
  obtain ⟨rest, hvars⟩ := Trials.generate_trial_search_variations_head q
  rw [Trials.searchTrialsRun, fanoutRun, Trials.prepareInputs, hvars]
  simp only [List.map_cons, hall, Trials.search_single_trial_query]
  rw [fanoutGo]
  have hstep : fanoutStep (fun t => t.nct_id) (fun k => !(k == ""))
      ⟨[], [], 0, []⟩ (Trials.get_fallback_trials q) =
      ⟨Trials.get_fallback_trials q,
        ["NCT11223344", "NCT87654321", "NCT12345678"], 1,
        [] ++ Trials.get_fallback_trials q⟩ := by
    rw [fanoutStep]
    rw [tr_addAll_init]
  rw [hstep]
  split_ifs with hbr
  · rfl
  · rw [fanoutGo_noop]
    intro out hm
    simp only [List.mem_map] at hm
    obtain ⟨v, _, hv⟩ := hm
    cases hv
    exact tr_addAll_noop q v

/-- Claim C3, amended: provided `max_results ≥ 1`, a connector search
call whose live calls all raise or time out returns, with no exception
reaching the caller (the embedded searches are total functions), the
non-empty deterministic fallback record list truncated to `max_results`,
whose text echoes the query.  (For `max_results = 0` the truncation
empties the result, see the counterexample.) -/
theorem claim_C3_degradation :
    (∀ (q : String) (maxr : Nat) (world : String → VarCall Article),
      1 ≤ maxr → (∀ v, world v = VarCall.live LiveResult.apiError) →
      PubMed.search_articles q maxr world =
        (PubMed.get_fallback_data q).take maxr ∧
      PubMed.search_articles q maxr world ≠ [] ∧
      ∀ a ∈ PubMed.search_articles q maxr world,
        ∃ pre post, a.abstract = pre ++ q ++ post) ∧
    (∀ (q : String) (maxr : Nat) (world : String → VarCall Trial),
      1 ≤ maxr → (∀ v, world v = VarCall.live LiveResult.apiError) →
      (Trials.search_trials q maxr world).trials =
        (Trials.get_fallback_trials q).take maxr ∧
      (Trials.search_trials q maxr world).trials ≠ [] ∧
      ∀ t ∈ (Trials.search_trials q maxr world).trials,
        ∃ pre post, t.title = pre ++ q ++ post) := by
  constructor
  · intro q maxr world hmax hall
    have hrec := pm_records_all_fail q maxr world hall
    have heq : PubMed.search_articles q maxr world =
        (PubMed.get_fallback_data q).take maxr := by
      rw [PubMed.search_articles, hrec]
    refine ⟨heq, ?_, ?_⟩
    · rw [heq]
      obtain ⟨m, rfl⟩ : ∃ m, maxr = m + 1 := ⟨maxr - 1, by omega⟩
      simp [PubMed.get_fallback_data, List.take_succ_cons]
    · intro a ha
      rw [heq] at ha
      have ha' : a ∈ PubMed.get_fallback_data q :=
        (List.take_sublist _ _).subset ha
      simp only [PubMed.get_fallback_data, List.mem_cons, List.not_mem_nil,
        or_false] at ha'
      rcases ha' with rfl | rfl
      · exact ⟨"This comprehensive review examines the latest developments in ",
          " research, highlighting key findings and future directions in the field.",
          rfl⟩
      · exact ⟨"Clinical studies demonstrate the effectiveness of ",
          " in various therapeutic applications, with promising results for patient outcomes.",
          rfl⟩
  · intro q maxr world hmax hall
    have hrec := tr_records_all_fail q maxr world hall
    have heq : (Trials.search_trials q maxr world).trials =
        (Trials.get_fallback_trials q).take maxr := by
      show (Trials.searchTrialsRun q maxr world).records.take maxr = _
      rw [hrec]
    refine ⟨heq, ?_, ?_⟩
    · rw [heq]
      obtain ⟨m, rfl⟩ : ∃ m, maxr = m + 1 := ⟨maxr - 1, by omega⟩
      simp [Trials.get_fallback_trials, List.take_succ_cons]
    · intro t ht
      rw [heq] at ht
      have ht' : t ∈ Trials.get_fallback_trials q :=
        (List.take_sublist _ _).subset ht
      simp only [Trials.get_fallback_trials, List.mem_cons, List.not_mem_nil,
        or_false] at ht'
      rcases ht' with rfl | rfl | rfl
      · exact ⟨"A Study to Evaluate the Efficacy of a Simulated Drug for '",
          "'", rfl⟩
      · exact ⟨"Phase II Trial Investigating ", " Treatment", rfl⟩
      · exact ⟨"Safety and Efficacy Study for ", "", (str_append_empty _).symm⟩

/-- Counterexample to claim C3 as stated: a search call with
`max_results = 0` whose live calls all fail returns the empty list, not
a non-empty fallback list. -/
theorem claim_C3_counterexample :
    PubMed.search_articles "x" 0 pmWorldFail = [] := by
  decide

/-- Witness for the amended claim C3 at a concrete all-failing call. -/
theorem claim_C3_degradation_witness :
    PubMed.search_articles "x" 1 pmWorldFail ≠ [] ∧
    (Trials.search_trials "x" 1 trWorldFail).trials ≠ [] :=
  ⟨(claim_C3_degradation.1 "x" 1 pmWorldFail (by decide) (fun v => rfl)).2.1,
   (claim_C3_degradation.2 "x" 1 trWorldFail (by decide) (fun v => rfl)).2.1⟩

/-- Claim C7: query variation generation is deterministic with the
external-completion enhancement disabled — for any two run environments
with no OpenAI key configured (whatever completions or literature
orderings they would otherwise produce), the pubchem variation generator
yields identical lists on the same input term.  The pubmed generator
`PubMed.generate_search_variations` takes no environment input at all in
this embedding, so its determinism is definitional. -/
theorem claim_C7_determinism :
    ∀ (q : String) (env₁ env₂ : PubChem.PCEnv),
      env₁.openai_api_key = none → env₂.openai_api_key = none →
      PubChem.generate_compound_search_variations q none env₁ =
        PubChem.generate_compound_search_variations q none env₂ := by
  intro q env₁ env₂ h₁ h₂
  have e₁ : PubChem.ai_enhance_compound_queries env₁ = [] := by
    rw [PubChem.ai_enhance_compound_queries, h₁]
  have e₂ : PubChem.ai_enhance_compound_queries env₂ = [] := by
    rw [PubChem.ai_enhance_compound_queries, h₂]
  simp only [PubChem.generate_compound_search_variations, e₁, e₂]

/-- Witness for claim C7 at two concretely different disabled-AI
environments. -/
theorem claim_C7_determinism_witness :
    PubChem.generate_compound_search_variations "aspirin" none pcEnvA =
      PubChem.generate_compound_search_variations "aspirin" none pcEnvB :=
  claim_C7_determinism "aspirin" pcEnvA pcEnvB rfl rfl

/-- Claim C8, amended: the enrichment call makes at most 4 primary
attempts; when every attempt is rate limited (and a key is configured)
it makes exactly 4 and then switches to the secondary provider; when the
primary chain fails and the secondary provider raises, the templated
static summary is returned; and the returned text can only be empty when
the secondary provider itself succeeds with an empty completion — in
every other terminal state it is non-empty, and no exception reaches the
caller (the embedded call is a total function). -/
theorem claim_C8_enrichment_chain :
    ∀ (pipeline : String → String) (env : Rag.LlmEnv),
      (Rag.call_cerebras_api pipeline env).2 ≤ 4 ∧
      ((∀ i, env.primary i = Rag.PrimaryOutcome.rateLimited) →
        env.cerebras_api_key ≠ none →
        (Rag.call_cerebras_api pipeline env).2 = 4 ∧
        (Rag.call_cerebras_api pipeline env).1 = Rag.fallback_to_openai env) ∧
      (env.cerebras_api_key ≠ none →
        (Rag.primaryGo env.primary [0, 1, 2, 3]).1 = none →
        env.openai_api_key ≠ none → env.openai_completion = none →
        (Rag.call_cerebras_api pipeline env).1 = Rag.staticSummary) ∧
      ((Rag.call_cerebras_api pipeline env).1 = "" →
        env.openai_completion = some (some "")) := by
  intro pipeline env
  rcases hkey : env.cerebras_api_key with _ | k
  · have hc : Rag.call_cerebras_api pipeline env =
        ("I'm currently unable to access my AI capabilities. Please try again later.",
          0) := by
      rw [Rag.call_cerebras_api, hkey]
    refine ⟨by rw [hc]; omega, ?_, ?_, ?_⟩
    · intro _ hkn
      exact absurd rfl hkn
    · intro hkn
      exact absurd rfl hkn
    · intro hempty
      rw [hc] at hempty
      simp at hempty
  · rcases hp : Rag.primaryGo env.primary [0, 1, 2, 3] with ⟨r, n⟩
    have hn : n ≤ 4 := by
      have := Rag.primaryGo_attempts_le env.primary [0, 1, 2, 3]
      rw [hp] at this
      simpa using this
    cases r with
    | some raw =>
      have hc : Rag.call_cerebras_api pipeline env =
          (Rag.clean_cerebras_response pipeline (raw.getD "No response generated"),
            n) := by
        rw [Rag.call_cerebras_api, hkey, hp]
      refine ⟨by rw [hc]; exact hn, ?_, ?_, ?_⟩
      · intro hall _
        have h4 := Rag.primaryGo_all429 env.primary hall
        rw [hp] at h4
        simp at h4
      · intro _ hnone _ _
        simp at hnone
      · intro hempty
        rw [hc] at hempty
        exact absurd hempty (Rag.clean_cerebras_response_ne_empty _ _)
    | none =>
      have hc : Rag.call_cerebras_api pipeline env =
          (Rag.fallback_to_openai env, n) := by
        rw [Rag.call_cerebras_api, hkey, hp]
      refine ⟨by rw [hc]; exact hn, ?_, ?_, ?_⟩
      · intro hall _
        have h4 := Rag.primaryGo_all429 env.primary hall
        rw [hp] at h4
        have hn4 : n = 4 := by
          simpa using h4
        constructor
        · rw [hc, hn4]
        · rw [hc]
      · intro _ _ hok hcomp
        rw [hc]
        show Rag.fallback_to_openai env = Rag.staticSummary
        rcases hok' : env.openai_api_key with _ | k2
        · exact absurd hok' hok
        · simp [Rag.fallback_to_openai, hok', hcomp]
      · intro hempty
        rw [hc] at hempty
        have hf : Rag.fallback_to_openai env = "" := hempty
        rw [Rag.fallback_to_openai] at hf
        rcases hok' : env.openai_api_key with _ | k2
        · rw [hok'] at hf
          simp at hf
        · rw [hok'] at hf
          rcases hcomp : env.openai_completion with _ | c
          · rw [hcomp] at hf
            simp [Rag.staticSummary] at hf
          · rcases c with _ | s
            · rw [hcomp] at hf
              simp [Rag.staticSummary] at hf
            · rw [hcomp] at hf
              simp only at hf
              rw [hf]

/-- Counterexample to claim C8 as stated: when the primary call times out
and the secondary provider succeeds with an empty completion, the
caller-visible summary text is empty — the "terminal state always yields
a non-empty text" part of the claim fails on the code. -/
theorem claim_C8_counterexample :
    (Rag.call_cerebras_api (fun s => s) llmEnvTimeoutEmpty).1 = "" := by
  rfl

/-- Witness for the amended claim C8: an all-429 environment makes
exactly four primary attempts and then falls back to the secondary
provider. -/
theorem claim_C8_enrichment_chain_witness :
    (Rag.call_cerebras_api (fun s => s) llmEnvAll429).2 = 4 ∧
    (Rag.call_cerebras_api (fun s => s) llmEnvAll429).1 =
      Rag.fallback_to_openai llmEnvAll429 :=
  (claim_C8_enrichment_chain (fun s => s) llmEnvAll429).2.1 (fun i => rfl)
    (by decide)

/-- Claim C9, amended: for every non-empty raw completion string — and
every behaviour of the boilerplate-stripping middle phase — the
post-processing returns text that ends with a terminating punctuation
mark and contains a TL;DR marker, appending a templated section when the
completion omitted it.  (The empty completion maps to the fixed
placeholder `"No response generated"`, see the counterexample.) -/
theorem claim_C9_postprocessing :
    ∀ (pipeline : String → String) (raw : String), raw ≠ "" →
      Py.endsWithPunct (Rag.clean_cerebras_response pipeline raw) = true ∧
      Rag.containsMarker (Rag.clean_cerebras_response pipeline raw) = true := by
  intro pipeline raw h
  rw [Rag.clean_cerebras_response, if_neg h]
  exact ⟨Rag.finalizeResponse_endsWithPunct _, Rag.finalizeResponse_marker _⟩

/-- Counterexample to claim C9 as stated: the empty raw completion is
mapped to `"No response generated"`, which neither ends with terminating
punctuation nor contains a TL;DR section. -/
theorem claim_C9_counterexample :
    Py.endsWithPunct (Rag.clean_cerebras_response (fun s => s) "") = false ∧
    Rag.containsMarker (Rag.clean_cerebras_response (fun s => s) "") = false := by
  decide

/-- Witness for the amended claim C9 at a concrete completion. -/
theorem claim_C9_postprocessing_witness :
    Py.endsWithPunct (Rag.clean_cerebras_response (fun s => s) "A") = true ∧
    Rag.containsMarker (Rag.clean_cerebras_response (fun s => s) "A") = true :=
  claim_C9_postprocessing (fun s => s) "A" (by decide)
